import Mathlib

/-!
Verification development for the CodeArena learning-platform backend.

The repository consists of Mongoose document schemas with instance methods
(`src/server/models/Course.ts`, `src/server/models/ProblemSet.ts`) and an
Express route-registration module (`registerRoutes`).  This file gives a
shallow embedding of the data model, the schema validation rules, the
document methods and the route handlers, and proves the specification
claims about them.

Modelling conventions:
* JavaScript numbers are modelled as `Int` where the code only ever holds
  integers (ids, counts, problem ids, order fields) and as `Rat` for the
  course statistics fields (`rating`, `completionRate`, `estimatedHours`,
  `enrollmentCount`) whose schema bounds are about real-valued quantities.
* `Date` values are modelled as integer timestamps (`Int`).
* `mongoose.Schema.Types.Mixed` payloads are carried around opaquely; they
  are never inspected by any method, so they are modelled as `String`.
* A fallible method (`updateProblemInstance` throws) returns `Except String`,
  the error value carrying the thrown message; returning `.error` models
  "throw before any mutation or save", returning `.ok d` models "the
  document now reads `d` and `save` was called on it".
* Optional document fields are `Option`; `none` is a missing / `undefined`
  field.
-/

namespace CodeArena

/-- JavaScript whitespace accepted by `parseInt` before the number. -/
def jsSpace (c : Char) : Bool :=
  c = ' ' || c = '\t' || c = '\n' || c = '\r'

/-- Numeric value of a list of decimal digit characters. -/
def digitsVal (ds : List Char) : Nat :=
  ds.foldl (fun a c => a * 10 + (c.toNat - 48)) 0

/-- The maximal leading run of decimal digits, `none` when there is none
(the `NaN` case of `parseInt`). -/
def leadingNat (cs : List Char) : Option Nat :=
  let ds := cs.takeWhile Char.isDigit
  if ds.isEmpty then none else some (digitsVal ds)

/-- `parseInt(s)` as used by the route handlers: skip leading whitespace,
an optional sign, then a leading run of decimal digits; `none` models `NaN`.
(The handlers only branch on `Number.isNaN`, so the hexadecimal
auto-detection of the real `parseInt` is immaterial to the claims.) -/
def parseIntJS (s : String) : Option Int :=
  match s.toList.dropWhile jsSpace with
  | '-' :: rest => (leadingNat rest).map (fun n => -(n : Int))
  | '+' :: rest => (leadingNat rest).map (fun n => (n : Int))
  | cs => (leadingNat cs).map (fun n => (n : Int))

/-- `listLeads needle hay` holds when `needle` is an initial run of `hay`. -/
def listLeads : List Char → List Char → Bool
  | [], _ => true
  | _ :: _, [] => false
  | a :: as, b :: bs => a == b && listLeads as bs

/-- `listInside needle hay`: `needle` occurs contiguously inside `hay`. -/
def listInside (needle : List Char) : List Char → Bool
  | [] => needle.isEmpty
  | c :: cs => listLeads needle (c :: cs) || listInside needle cs

/-- `hay.includes(needle)` of JavaScript strings. -/
def strIncludes (hay needle : String) : Bool :=
  listInside needle.toList hay.toList

/- ### Course (src/server/models/Course.ts) -/

/-- A `Course` document: the fields of `ICourse` / `courseSchema`. -/
structure Course where
  id : Int
  title : String
  description : Option String := none
  category : Option String := none
  difficulty : Option String := none
  estimatedHours : Option Rat := none
  prerequisites : List String := []
  learningObjectives : List String := []
  problems : List Int := []
  modules : List Int := []
  enrolledUsers : List String := []
  isPublic : Bool := false
  enableMarkComplete : Bool := true
  createdBy : Option String := none
  tags : List String := []
  rating : Option Rat := none
  enrollmentCount : Option Rat := some 0
  completionRate : Option Rat := some 0
  allowDirectEnrollment : Bool := false
  deriving DecidableEq

/-- The `enum` rule on `courseSchema.difficulty`: a present value must be
one of the three listed levels; an absent value passes. -/
def courseDifficultyValid : Option String → Bool
  | none => true
  | some d => d ∈ ["beginner", "intermediate", "advanced"]

/-- The `min: 0` rule on `courseSchema.estimatedHours`. -/
def estimatedHoursValid : Option Rat → Bool
  | none => true
  | some h => decide (0 ≤ h)

/-- The `min: 0, max: 5` rules on `courseSchema.rating`. -/
def ratingValid : Option Rat → Bool
  | none => true
  | some r => decide (0 ≤ r) && decide (r ≤ 5)

/-- The `min: 0` rule on `courseSchema.enrollmentCount`. -/
def enrollmentCountValid : Option Rat → Bool
  | none => true
  | some n => decide (0 ≤ n)

/-- The `min: 0, max: 100` rules on `courseSchema.completionRate`. -/
def completionRateValid : Option Rat → Bool
  | none => true
  | some r => decide (0 ≤ r) && decide (r ≤ 100)

/-- Validation of a whole `Course` document: the conjunction of the
declared path rules of `courseSchema` (`required` on `title` — Mongoose
rejects the empty string for a required `String` path — and the numeric
and enum validators; `id` being `required` is structural here since the
field is not optional in the record). -/
def validateCourse (c : Course) : Bool :=
  c.title ≠ "" &&
  courseDifficultyValid c.difficulty &&
  estimatedHoursValid c.estimatedHours &&
  ratingValid c.rating &&
  enrollmentCountValid c.enrollmentCount &&
  completionRateValid c.completionRate

/-- `incrementEnrollment`: `this.enrollmentCount = (this.enrollmentCount || 0) + 1`
then `save`.  (`x || 0` agrees with `Option.getD 0`: a missing value and a
zero value both give `0`.) -/
def incrementEnrollment (c : Course) : Course :=
  { c with enrollmentCount := some (c.enrollmentCount.getD 0 + 1) }

/-- `decrementEnrollment`: `this.enrollmentCount = Math.max(0, (this.enrollmentCount || 0) - 1)`
then `save`. -/
def decrementEnrollment (c : Course) : Course :=
  { c with enrollmentCount := some (max 0 (c.enrollmentCount.getD 0 - 1)) }

/- ### ProblemSet (src/server/models/ProblemSet.ts) -/

/-- Opaque `mongoose.Schema.Types.Mixed` payload (`customTestCases`,
`customExamples`, `customStarterCode`); never inspected by any method. -/
abbrev Mixed := String

/-- A problem instance subdocument: the fields of `IProblemInstance` /
`problemInstanceSchema`.  `_id` is the subdocument ObjectId rendered as a
string; `lastModified` is a timestamp. -/
structure ProblemInstance where
  oid : Option String := none
  problemId : Int
  title : Option String := none
  description : Option String := none
  difficulty : Option String := none
  customTestCases : List Mixed := []
  customExamples : List Mixed := []
  customStarterCode : Option Mixed := none
  timeLimit : Option Int := none
  memoryLimit : Option Int := none
  hints : List String := []
  constraintsText : Option String := none
  inputFormat : Option String := none
  outputFormat : Option String := none
  notes : Option String := none
  order : Int
  isCustomized : Bool := false
  lastModified : Int := 0
  modifiedBy : Option String := none
  deriving DecidableEq

/-- A `ProblemSet` document: the fields of `IProblemSet` /
`problemSetSchema`. -/
structure ProblemSet where
  id : String
  title : String
  description : Option String := none
  difficulty : String
  category : Option String := none
  tags : List String := []
  problemIds : List String := []
  problemInstances : List ProblemInstance := []
  isPublic : Bool := false
  estimatedTime : Option Int := none
  totalProblems : Int := 0
  createdBy : String
  participants : List String := []
  allowDirectEnrollment : Bool := false
  deriving DecidableEq

/-- The `enum` rule on `problemInstanceSchema.difficulty`: a present value
must be `easy`, `medium` or `hard`; an absent value passes. -/
def instanceDifficultyValid : Option String → Bool
  | none => true
  | some d => d ∈ ["easy", "medium", "hard"]

/-- Validation of a problem instance subdocument: the only declared value
rule is the difficulty enum (`problemId` and `order` are `required` and
structurally present in the record; `isCustomized` and `lastModified` only
have defaults). -/
def validateProblemInstance (p : ProblemInstance) : Bool :=
  instanceDifficultyValid p.difficulty

/-- The rule on `problemSetSchema.difficulty`: the path is declared
`{ type: String, required: true }` with NO enum, so validation only demands
a present, nonempty string. -/
def problemSetDifficultyValid (d : String) : Bool :=
  d ≠ ""

/-- Validation of a whole `ProblemSet` document: `required` on `id`,
`title`, `difficulty` and `createdBy` (Mongoose rejects the empty string
for a required `String` path), plus validation of every embedded problem
instance.  Note the absence of any enum constraint on `difficulty`. -/
def validateProblemSet (ps : ProblemSet) : Bool :=
  ps.id ≠ "" &&
  ps.title ≠ "" &&
  problemSetDifficultyValid ps.difficulty &&
  ps.createdBy ≠ "" &&
  ps.problemInstances.all validateProblemInstance

/-- `addProblem(instance)`: push the instance, reset `totalProblems` to the
array length, `save`. -/
def addProblem (ps : ProblemSet) (inst : ProblemInstance) : ProblemSet :=
  let insts := ps.problemInstances ++ [inst]
  { ps with problemInstances := insts, totalProblems := insts.length }

/-- `removeProblem(problemId)`: drop every instance with that `problemId`,
reset `totalProblems` to the array length, `save`. -/
def removeProblem (ps : ProblemSet) (problemId : Int) : ProblemSet :=
  let insts := ps.problemInstances.filter (fun p => p.problemId ≠ problemId)
  { ps with problemInstances := insts, totalProblems := insts.length }

/-- `removeProblemInstance(id)`: drop every instance whose `_id` stringifies
to `id` (an instance without an `_id` is kept: `undefined !== idStr`), reset
`totalProblems`, `save`. -/
def removeProblemInstance (ps : ProblemSet) (id : String) : ProblemSet :=
  let insts := ps.problemInstances.filter (fun p => p.oid ≠ some id)
  { ps with problemInstances := insts, totalProblems := insts.length }

/-- The `Partial<IProblemInstance>` argument of `updateProblemInstance`:
each field optionally present; a present field overwrites the target field
by `Object.assign`. -/
structure InstanceUpdates where
  oid : Option (Option String) := none
  problemId : Option Int := none
  title : Option (Option String) := none
  description : Option (Option String) := none
  difficulty : Option (Option String) := none
  customTestCases : Option (List Mixed) := none
  customExamples : Option (List Mixed) := none
  customStarterCode : Option (Option Mixed) := none
  timeLimit : Option (Option Int) := none
  memoryLimit : Option (Option Int) := none
  hints : Option (List String) := none
  constraintsText : Option (Option String) := none
  inputFormat : Option (Option String) := none
  outputFormat : Option (Option String) := none
  notes : Option (Option String) := none
  order : Option Int := none
  isCustomized : Option Bool := none
  lastModified : Option Int := none
  modifiedBy : Option (Option String) := none
  deriving DecidableEq

/-- `Object.assign(instance, updates, { lastModified: new Date() })`: each
present update field overwrites the instance field, and `lastModified` is
then unconditionally set to `now` (the last `assign` source wins even when
`updates` itself carries a `lastModified`). -/
def assignUpdates (p : ProblemInstance) (u : InstanceUpdates) (now : Int) :
    ProblemInstance :=
  { oid := u.oid.getD p.oid
    problemId := u.problemId.getD p.problemId
    title := u.title.getD p.title
    description := u.description.getD p.description
    difficulty := u.difficulty.getD p.difficulty
    customTestCases := u.customTestCases.getD p.customTestCases
    customExamples := u.customExamples.getD p.customExamples
    customStarterCode := u.customStarterCode.getD p.customStarterCode
    timeLimit := u.timeLimit.getD p.timeLimit
    memoryLimit := u.memoryLimit.getD p.memoryLimit
    hints := u.hints.getD p.hints
    constraintsText := u.constraintsText.getD p.constraintsText
    inputFormat := u.inputFormat.getD p.inputFormat
    outputFormat := u.outputFormat.getD p.outputFormat
    notes := u.notes.getD p.notes
    order := u.order.getD p.order
    isCustomized := u.isCustomized.getD p.isCustomized
    lastModified := now
    modifiedBy := u.modifiedBy.getD p.modifiedBy }

/-- Replace the first element satisfying `pred` by its image under `f`. -/
def updateFirst (pred : ProblemInstance → Bool)
    (f : ProblemInstance → ProblemInstance) :
    List ProblemInstance → List ProblemInstance
  | [] => []
  | p :: ps => if pred p then f p :: ps else p :: updateFirst pred f ps

/-- `updateProblemInstance(id, updates)`: find the first instance whose
`_id` stringifies to `id`; when found, `Object.assign` the updates onto it,
stamp `lastModified` with the current time and `save`; otherwise throw
`Problem instance not found` without touching the document. -/
def updateProblemInstance (ps : ProblemSet) (id : String)
    (updates : InstanceUpdates) (now : Int) : Except String ProblemSet :=
  if ps.problemInstances.any (fun p => p.oid = some id) then
    .ok { ps with
          problemInstances :=
            updateFirst (fun p => p.oid = some id)
              (fun p => assignUpdates p updates now) ps.problemInstances }
  else
    .error "Problem instance not found"

/-- Replace the element at index `j` by its image under `f`: the in-place
field write on one heap cell. -/
def modifyAt {α : Type} (f : α → α) : List α → Nat → List α
  | [], _ => []
  | x :: xs, 0 => f x :: xs
  | x :: xs, n + 1 => x :: modifyAt f xs n

/-- One iteration of the mapped closure of `reorderProblems`, at the pair
`(index, problemId)`.  The instance array is the heap and a collected
reference is an index into it: `find` locates the first instance with the
given `problemId` (searching the current heap agrees with searching the
original array, since the mutation never touches `problemId`); when found,
its `order` field is written in place with `index + 1` and the reference is
collected; an unmatched id yields `null`, dropped as by `filter(Boolean)`. -/
def reorderStep (st : List ProblemInstance × List Nat) (kp : Nat × Int) :
    List ProblemInstance × List Nat :=
  match st.1.findIdx? (fun p => p.problemId = kp.2) with
  | some i =>
    (modifyAt (fun p => { p with order := (kp.1 : Int) + 1 }) st.1 i,
     st.2 ++ [i])
  | none => st

/-- `reorderProblems(newOrder)`: run the mapped closure over the enumerated
`newOrder`, then replace `problemInstances` by the collected references,
each dereferenced against the final heap — the JS array holds object
references, so when `newOrder` repeats an id all entries aliasing the same
instance show the `order` written by the last occurrence.  `totalProblems`
is not touched, and `save` is called on the result. -/
def reorderProblems (ps : ProblemSet) (newOrder : List Int) : ProblemSet :=
  let st := newOrder.enum.foldl reorderStep (ps.problemInstances, [])
  { ps with problemInstances := st.2.filterMap (fun i => st.1.get? i) }

/-- The `order` value the instance found for `pid` holds after the in-place
writes of `reorderProblems` for the entries `rest.enumFrom k`: each
occurrence of `pid` overwrites it with its index plus one, so the last
occurrence wins; `dflt` when `pid` does not occur in `rest`. -/
def finalOrderFrom (k : Nat) (rest : List Int) (pid : Int) (dflt : Int) : Int :=
  (rest.enumFrom k).foldl
    (fun acc kp => if kp.2 = pid then ((kp.1 : Int) + 1) else acc) dflt

/-- `finalOrderFrom` over the whole enumerated `newOrder`. -/
def finalOrder (newOrder : List Int) (pid : Int) (dflt : Int) : Int :=
  finalOrderFrom 0 newOrder pid dflt

/-- Two instances equal except possibly in `order` — the only field the
reorder heap ever mutates. -/
def OrderOnly (p h : ProblemInstance) : Prop :=
  h = { p with order := h.order }

/- ### The alias endpoint GET /api/problem-sets-with-enrollment
(registerRoutes, src/unnamed/part_000 lines 66-140) -/

/-- A BSON value stored in a `participants` array of the raw `problemsets`
collection: raw writes can leave either a plain string or an ObjectId, which
is exactly why the endpoint queries for both forms. -/
inductive BVal where
  | str (s : String)
  | oid (s : String)
  deriving DecidableEq

/-- A document of the `problemsets` collection as the endpoint reads it:
`mongoId` is `_id` (always present), `id` is the application-level id field
(possibly missing on raw documents), `participants` the raw array.  The
other fields are copied through unchanged and do not affect `isEnrolled`. -/
structure RawProblemSet where
  mongoId : String
  id : Option String := none
  participants : List BVal := []
  deriving DecidableEq

/-- A `ProblemSetEnrollment` document as the endpoint reads it
(`problemSetId` already stringified as `String(e.problemSetId)` does). -/
structure EnrollmentRecord where
  userId : String
  problemSetId : String
  deriving DecidableEq

/-- The two collections the endpoint consults. -/
structure EnrollmentDb where
  problemSets : List RawProblemSet := []
  enrollments : List EnrollmentRecord := []

/-- `String(x)` on a possibly-missing id: `String(undefined)` is the
string `undefined`. -/
def jsStringOfId : Option String → String
  | none => "undefined"
  | some s => s

/-- `String(ps.id || ps._id)`: the application id when present and truthy
(the empty string is falsy), else the Mongo `_id`. -/
def idOrMongoId (ps : RawProblemSet) : String :=
  match ps.id with
  | none => ps.mongoId
  | some s => if s = "" then ps.mongoId else s

/-- Source 1: `ProblemSetEnrollment.find({ userId })` mapped to
`String(e.problemSetId)`. -/
def enrollmentIdsOf (db : EnrollmentDb) (u : String) : List String :=
  (db.enrollments.filter (fun e => decide (e.userId = u))).map
    (fun e => e.problemSetId)

/-- The `$or` participants query: the array contains the user id as a plain
string or as an ObjectId. -/
def participantsMatch (ps : RawProblemSet) (u : String) : Bool :=
  ps.participants.any (fun v => decide (v = .str u) || decide (v = .oid u))

/-- Source 2: the ids (`String(ps.id || ps._id)`) of the problem sets whose
`participants` array matched the user. -/
def participantIdsOf (db : EnrollmentDb) (u : String) : List String :=
  (db.problemSets.filter (fun ps => participantsMatch ps u)).map idOrMongoId

/-- `userEnrollments`: the union of both sources (kept as a list; the
`Set` in the code only deduplicates, which leaves membership unchanged).
An unauthenticated request gets the empty set. -/
def userEnrollmentsOf (db : EnrollmentDb) : Option String → List String
  | none => []
  | some u => enrollmentIdsOf db u ++ participantIdsOf db u

/-- `isEnrolled` for one mapped problem set:
`userEnrollments.has(String(ps.id)) || userEnrollments.has(String(ps._id))`. -/
def isEnrolledFlag (db : EnrollmentDb) (user : Option String)
    (ps : RawProblemSet) : Bool :=
  let enr := userEnrollmentsOf db user
  enr.any (fun s => decide (s = jsStringOfId ps.id)) ||
    enr.any (fun s => decide (s = ps.mongoId))

/-- The endpoint body: every stored problem set, paired with its computed
`isEnrolled` flag (the other copied-through fields are unchanged and
elided). -/
def problemSetsWithEnrollment (db : EnrollmentDb) (user : Option String) :
    List (RawProblemSet × Bool) :=
  db.problemSets.map (fun ps => (ps, isEnrolledFlag db user ps))

/- ### Enrollment management aliases
(registerRoutes, src/unnamed/part_000 lines 143-175) -/

/-- DELETE /api/problem-set-enrollments/:enrollmentId.  `store` is
`storage.deleteProblemSetEnrollment`, abstract here (storage.ts is outside
the model): `.ok` is a normal return, `.error m` a thrown error with
message `m`.  Returns the HTTP status and the JSON `message` field. -/
def deleteEnrollmentHandler (store : Int → Except String Unit)
    (param : String) : Nat × String :=
  match parseIntJS param with
  | none => (400, "Invalid enrollment id")
  | some enrollmentId =>
    match store enrollmentId with
    | .ok _ => (200, "Enrollment deleted")
    | .error m =>
      if strIncludes m "not found" then (404, "Enrollment not found")
      else (500, "Failed to delete enrollment")

/-- The body of a PATCH response: an error message or the updated record. -/
inductive PatchBody (α : Type) where
  | message (m : String)
  | record (a : α)
  deriving DecidableEq

/-- PATCH /api/problem-set-enrollments/:enrollmentId.  `store` is
`ProblemSetEnrollment.findOneAndUpdate({id}, {$set: ...}, {new: true})`:
`.error ()` a thrown storage error, `.ok none` no document with that id,
`.ok (some e)` the updated document. -/
def patchEnrollmentHandler {α : Type} (store : Int → Except Unit (Option α))
    (param : String) : Nat × PatchBody α :=
  match parseIntJS param with
  | none => (400, .message "Invalid enrollment id")
  | some enrollmentId =>
    match store enrollmentId with
    | .error _ => (500, .message "Failed to update enrollment")
    | .ok none => (404, .message "Enrollment not found")
    | .ok (some e) => (200, .record e)

/- ### POST /api/courses/:id/reset-progress
(registerRoutes, src/unnamed/part_000 lines 49-63) -/

/-- `req.user` as the `protect` middleware leaves it. -/
structure AuthUser where
  id : Option String := none
  role : Option String := none
  deriving DecidableEq

/-- The body of a reset-progress response. -/
inductive ResetBody where
  | message (m : String)
  | successTrue
  deriving DecidableEq

/-- POST /api/courses/:id/reset-progress.  `canUserAccessCourse` and
`resetUserCourseProgress` are the storage operations, abstract here; the
course id is `parseInt(req.params.id)` with `none` for `NaN`.  A missing
`req.user`, a missing `id` and an empty-string `id` are all falsy, hence
401. -/
def resetProgressHandler
    (canUserAccessCourse : Option Int → String → Bool → Except Unit Bool)
    (resetUserCourseProgress : String → Option Int → Except Unit Unit)
    (param : String) (user : Option AuthUser) : Nat × ResetBody :=
  let courseId := parseIntJS param
  let isAdmin := user.bind (fun u => u.role) = some "admin"
  match user.bind (fun u => u.id) with
  | none => (401, .message "Unauthorized")
  | some uid =>
    if uid = "" then (401, .message "Unauthorized")
    else
      match canUserAccessCourse courseId uid isAdmin with
      | .error _ => (500, .message "Failed to reset course progress")
      | .ok false => (403, .message "Access denied")
      | .ok true =>
        match resetUserCourseProgress uid courseId with
        | .error _ => (500, .message "Failed to reset course progress")
        | .ok _ => (200, .successTrue)

/- ### Route dispatch and the API catch-all
(registerRoutes, src/unnamed/part_000 lines 24-183) -/

/-- An HTTP request as the router sees it. -/
structure Req where
  method : String
  path : String

/-- A registered handler: `none` means the handler passes the request on
(`next()` in Express, or the mount path did not match), `some` is a
produced response, abstracted to a status code and a JSON message body. -/
abbrev Handler := Req → Option (Nat × String)

/-- Express mount-path matching for `app.use(pre, ...)`: the path equals
the mount path or continues it at a segment boundary. -/
def mountMatches (pre path : String) : Bool :=
  path = pre || listLeads (pre ++ "/").toList path.toList

/-- `app.use(pre, router)`: the router runs only when the mount path
matches. -/
def mount (pre : String) (h : Handler) : Handler :=
  fun req => if mountMatches pre req.path then h req else none

/-- The route pattern `POST /api/courses/:id/reset-progress` (the param
segment must be non-empty). -/
def resetProgressRoute (h : Handler) : Handler :=
  fun req =>
    if req.method = "POST" then
      match req.path.splitOn "/" with
      | ["", "api", "courses", cid, "reset-progress"] =>
        if cid = "" then none else h req
      | _ => none
    else none

/-- The route pattern `GET /api/problem-sets-with-enrollment`. -/
def withEnrollmentRoute (h : Handler) : Handler :=
  fun req =>
    if req.method = "GET" && req.path = "/api/problem-sets-with-enrollment"
    then h req else none

/-- The route pattern `DELETE /api/problem-set-enrollments/:enrollmentId`. -/
def deleteEnrollmentRoute (h : Handler) : Handler :=
  fun req =>
    if req.method = "DELETE" then
      match req.path.splitOn "/" with
      | ["", "api", "problem-set-enrollments", eid] =>
        if eid = "" then none else h req
      | _ => none
    else none

/-- The route pattern `PATCH /api/problem-set-enrollments/:enrollmentId`. -/
def patchEnrollmentRoute (h : Handler) : Handler :=
  fun req =>
    if req.method = "PATCH" then
      match req.path.splitOn "/" with
      | ["", "api", "problem-set-enrollments", eid] =>
        if eid = "" then none else h req
      | _ => none
    else none

/-- The API-only 404 JSON fallback: `app.use('/api', ...)` answering 404
`Not Found` to every request whose path it matches. -/
def apiCatchAll : Handler :=
  fun req =>
    if mountMatches "/api" req.path then some (404, "Not Found") else none

/-- Try the registered handlers in registration order; the first response
wins. -/
def dispatch : List Handler → Req → Option (Nat × String)
  | [], _ => none
  | h :: hs, req =>
    match h req with
    | some r => some r
    | none => dispatch hs req

/-- Everything `registerRoutes` registers before the catch-all, in source
order.  The mounted routers and the maintenance routes live outside this
repository slice and are abstract handlers; the mount paths and the
patterns of the four inline routes are from the source. -/
def registerRoutesFront (maintenance problemSetsRouter versionHistoryRoutes
    contestsRouter adminRouter assignmentAnalyticsRoutes problemsRouter
    submissionsRouter coursesRouter modulesRouter usersRouter
    assignmentsRouter resetH withEnrollH delH patchH : Handler) :
    List Handler :=
  [maintenance,
   mount "/api/admin/problem-sets" problemSetsRouter,
   mount "/api/admin/assignments" problemSetsRouter,
   mount "/api/admin/version-history" versionHistoryRoutes,
   mount "/api/admin/contests" contestsRouter,
   mount "/api/admin" adminRouter,
   mount "/api/analytics" assignmentAnalyticsRoutes,
   mount "/api/problem-sets" problemSetsRouter,
   mount "/api/problems" problemsRouter,
   mount "/api/submissions" submissionsRouter,
   mount "/api/courses" coursesRouter,
   mount "/api/modules" modulesRouter,
   mount "/api/users" usersRouter,
   mount "/api/assignments" assignmentsRouter,
   mount "/api/contests" contestsRouter,
   resetProgressRoute resetH,
   withEnrollmentRoute withEnrollH,
   deleteEnrollmentRoute delH,
   patchEnrollmentRoute patchH]

/-- The full registration order of `registerRoutes`: every route, then the
API catch-all, registered last. -/
def registerRoutesTable (maintenance problemSetsRouter versionHistoryRoutes
    contestsRouter adminRouter assignmentAnalyticsRoutes problemsRouter
    submissionsRouter coursesRouter modulesRouter usersRouter
    assignmentsRouter resetH withEnrollH delH patchH : Handler) :
    List Handler :=
  registerRoutesFront maintenance problemSetsRouter versionHistoryRoutes
    contestsRouter adminRouter assignmentAnalyticsRoutes problemsRouter
    submissionsRouter coursesRouter modulesRouter usersRouter
    assignmentsRouter resetH withEnrollH delH patchH ++ [apiCatchAll]

/- ### Theorems -/

/-- C10: `incrementEnrollment` sets `enrollmentCount` to its previous value
plus 1 (a missing value counting as 0) and `decrementEnrollment` sets it to
`max 0 (previous - 1)`; hence non-negativity is preserved by both, and
decrementing a zero count leaves it at zero. -/
theorem claim_C10 (c : Course) :
    (incrementEnrollment c).enrollmentCount = some (c.enrollmentCount.getD 0 + 1) ∧
    (decrementEnrollment c).enrollmentCount = some (max 0 (c.enrollmentCount.getD 0 - 1)) ∧
    (0 ≤ c.enrollmentCount.getD 0 → 0 ≤ (incrementEnrollment c).enrollmentCount.getD 0) ∧
    0 ≤ (decrementEnrollment c).enrollmentCount.getD 0 ∧
    (c.enrollmentCount = some 0 → (decrementEnrollment c).enrollmentCount = some 0) := by
  refine ⟨rfl, rfl, ?_, ?_, ?_⟩
  · intro h
    simp only [incrementEnrollment, Option.getD_some]
    linarith
  · simp only [decrementEnrollment, Option.getD_some]
    exact le_max_left 0 _
  · intro h
    simp only [decrementEnrollment, h, Option.getD_some]
    norm_num

/-- Witness for C10 at a concrete course with a zero count. -/
theorem claim_C10_witness :
    (decrementEnrollment
        { id := 1, title := "Intro", enrollmentCount := some 0 }).enrollmentCount
      = some 0 :=
  (claim_C10 { id := 1, title := "Intro", enrollmentCount := some 0 }).2.2.2.2 rfl

/-- C4: a course passing validation has `rating` within `[0, 5]` and
`completionRate` within `[0, 100]` whenever present, and a course violating
either bound fails validation. -/
theorem claim_C4 (c : Course) :
    (validateCourse c = true →
        (∀ r, c.rating = some r → 0 ≤ r ∧ r ≤ 5) ∧
        (∀ x, c.completionRate = some x → 0 ≤ x ∧ x ≤ 100)) ∧
    (∀ r, c.rating = some r → (r < 0 ∨ 5 < r) → validateCourse c = false) ∧
    (∀ x, c.completionRate = some x → (x < 0 ∨ 100 < x) →
        validateCourse c = false) := by
  refine ⟨?_, ?_, ?_⟩
  · intro h
    simp only [validateCourse, Bool.and_eq_true] at h
    obtain ⟨⟨⟨⟨⟨-, -⟩, -⟩, hr⟩, -⟩, hc⟩ := h
    constructor
    · intro r hrat
      rw [hrat] at hr
      simp only [ratingValid, Bool.and_eq_true, decide_eq_true_eq] at hr
      exact hr
    · intro x hcr
      rw [hcr] at hc
      simp only [completionRateValid, Bool.and_eq_true, decide_eq_true_eq] at hc
      exact hc
  · intro r hrat hout
    by_contra hne
    have h : validateCourse c = true := by
      cases hv : validateCourse c
      · exact absurd hv hne
      · rfl
    simp only [validateCourse, Bool.and_eq_true] at h
    obtain ⟨⟨⟨⟨⟨-, -⟩, -⟩, hr⟩, -⟩, -⟩ := h
    rw [hrat] at hr
    simp only [ratingValid, Bool.and_eq_true, decide_eq_true_eq] at hr
    rcases hout with h1 | h1 <;> linarith [hr.1, hr.2]
  · intro x hcr hout
    by_contra hne
    have h : validateCourse c = true := by
      cases hv : validateCourse c
      · exact absurd hv hne
      · rfl
    simp only [validateCourse, Bool.and_eq_true] at h
    obtain ⟨⟨⟨⟨⟨-, -⟩, -⟩, -⟩, -⟩, hc⟩ := h
    rw [hcr] at hc
    simp only [completionRateValid, Bool.and_eq_true, decide_eq_true_eq] at hc
    rcases hout with h1 | h1 <;> linarith [hc.1, hc.2]

/-- Witness for C4: a concrete course with `rating = 6` is rejected by
validation. -/
theorem claim_C4_witness :
    validateCourse { id := 1, title := "Intro", rating := some 6 } = false :=
  (claim_C4 { id := 1, title := "Intro", rating := some 6 }).2.1 6 rfl
    (Or.inr (by norm_num))

/-- A problem-set document whose `difficulty` lies outside every difficulty
enumeration appearing in the schemas. -/
def psOutsideEnum : ProblemSet :=
  { id := "ps1", title := "Sorting drills", difficulty := "ultraviolet",
    createdBy := "u1" }

/-- C3 counterexample: `problemSetSchema.difficulty` is declared with no
enum, so a problem-set document whose difficulty is outside every declared
difficulty enumeration still passes validation, refuting the claim that all
three difficulty-carrying entities are enum-constrained. -/
theorem claim_C3_counterexample :
    validateProblemSet psOutsideEnum = true ∧
    psOutsideEnum.difficulty ∉
      ["easy", "medium", "hard", "beginner", "intermediate", "advanced"] := by
  constructor
  · rfl
  · decide

/-- C3 amended: `Course.difficulty` and `ProblemInstance.difficulty` are
enum-constrained (out-of-enum values fail document validation), but
`ProblemSet.difficulty` is only `required`: every nonempty string passes
its declared rule. -/
theorem claim_C3_amended :
    (∀ (c : Course) (d : String), c.difficulty = some d →
        d ∉ ["beginner", "intermediate", "advanced"] →
        validateCourse c = false) ∧
    (∀ (ps : ProblemSet) (p : ProblemInstance) (d : String),
        p ∈ ps.problemInstances → p.difficulty = some d →
        d ∉ ["easy", "medium", "hard"] →
        validateProblemSet ps = false) ∧
    (∀ d : String, d ≠ "" → problemSetDifficultyValid d = true) := by
  refine ⟨?_, ?_, ?_⟩
  · intro c d hd hout
    by_contra hne
    have h : validateCourse c = true := by
      cases hv : validateCourse c
      · exact absurd hv hne
      · rfl
    simp only [validateCourse, Bool.and_eq_true] at h
    obtain ⟨⟨⟨⟨⟨-, hdiff⟩, -⟩, -⟩, -⟩, -⟩ := h
    rw [hd] at hdiff
    simp only [courseDifficultyValid, List.mem_cons, decide_eq_true_eq] at hdiff
    simp only [List.mem_cons, List.mem_singleton] at hout
    tauto
  · intro ps p d hp hd hout
    by_contra hne
    have h : validateProblemSet ps = true := by
      cases hv : validateProblemSet ps
      · exact absurd hv hne
      · rfl
    simp only [validateProblemSet, Bool.and_eq_true, List.all_eq_true] at h
    have hinst := h.2 p hp
    simp only [validateProblemInstance, hd, instanceDifficultyValid,
      List.mem_cons, decide_eq_true_eq] at hinst
    simp only [List.mem_cons, List.mem_singleton] at hout
    tauto
  · intro d hd
    simpa [problemSetDifficultyValid] using hd

/-- Witness for the amended C3: a concrete course with an out-of-enum
difficulty fails validation. -/
theorem claim_C3_amended_witness :
    validateCourse { id := 2, title := "Graphs", difficulty := some "extreme" }
      = false :=
  claim_C3_amended.1 { id := 2, title := "Graphs", difficulty := some "extreme" }
    "extreme" rfl (by decide)

/-- C9: `addProblem`, `removeProblem` and `removeProblemInstance` each
re-establish `totalProblems = problemInstances.length`, while
`reorderProblems` never touches `totalProblems` and can shrink
`problemInstances`, leaving the invariant broken. -/
theorem claim_C9 :
    (∀ (ps : ProblemSet) (inst : ProblemInstance),
        (addProblem ps inst).totalProblems =
          ((addProblem ps inst).problemInstances.length : Int)) ∧
    (∀ (ps : ProblemSet) (pid : Int),
        (removeProblem ps pid).totalProblems =
          ((removeProblem ps pid).problemInstances.length : Int)) ∧
    (∀ (ps : ProblemSet) (id : String),
        (removeProblemInstance ps id).totalProblems =
          ((removeProblemInstance ps id).problemInstances.length : Int)) ∧
    (∀ (ps : ProblemSet) (newOrder : List Int),
        (reorderProblems ps newOrder).totalProblems = ps.totalProblems) ∧
    (∃ (ps : ProblemSet) (newOrder : List Int),
        (reorderProblems ps newOrder).problemInstances.length <
          ps.problemInstances.length ∧
        (reorderProblems ps newOrder).totalProblems = ps.totalProblems) := by
  refine ⟨fun ps inst => rfl, fun ps pid => rfl, fun ps id => rfl,
    fun ps newOrder => rfl, ?_⟩
  refine ⟨{ id := "s", title := "T", difficulty := "easy", createdBy := "u",
            problemInstances := [{ problemId := 1, order := 1 },
                                 { problemId := 2, order := 2 }],
            totalProblems := 2 }, [1], ?_, rfl⟩
  decide

/-- The two-instance problem set with a duplicated `problemId` used to
refute C2, and its distinct instances. -/
def dupA : ProblemInstance := { problemId := 1, order := 1, title := some "A" }

/-- Second instance with the same `problemId` as `dupA`. -/
def dupB : ProblemInstance := { problemId := 1, order := 2, title := some "B" }

/-- A problem set holding two instances that share `problemId = 1`. -/
def psDup : ProblemSet :=
  { id := "dup", title := "Dup", difficulty := "easy", createdBy := "u",
    problemInstances := [dupA, dupB], totalProblems := 2 }

/-- C2 counterexample: with two instances sharing `problemId = 1` and
`newOrder = [1]`, both instances have a `problemId` occurring in
`newOrder`, yet the reordered array keeps only one of them — `find?`
returns the first match and the second instance is dropped, so the result
is not "exactly the instances whose problemId occurs in newOrder". -/
theorem claim_C2_counterexample :
    (psDup.problemInstances.filter
        (fun p => decide (p.problemId ∈ [(1 : Int)]))).length = 2 ∧
    (reorderProblems psDup [1]).problemInstances.length = 1 ∧
    ∀ q ∈ (reorderProblems psDup [1]).problemInstances, q.title ≠ some "B" := by
  refine ⟨rfl, rfl, ?_⟩
  decide

theorem modifyAt_get? {α : Type} (f : α → α) :
    ∀ (l : List α) (j i : Nat),
      (modifyAt f l j).get? i = if i = j then (l.get? i).map f else l.get? i := by
  intro l
  induction l with
  | nil => intro j i; simp [modifyAt]
  | cons x xs ih =>
    intro j i
    cases j with
    | zero =>
      cases i with
      | zero => simp [modifyAt]
      | succ n => simp [modifyAt]
    | succ m =>
      cases i with
      | zero => simp [modifyAt]
      | succ n =>
        simp only [modifyAt, List.get?_cons_succ]
        rw [ih m n]
        by_cases h : n = m
        · simp [h]
        · have h2 : ¬(n + 1 = m + 1) := fun hh => h (Nat.succ_injective hh)
          simp [h, h2]

theorem orderOnly_problemId {p h : ProblemInstance} (hp : OrderOnly p h) :
    h.problemId = p.problemId := by
  rw [hp]

theorem sim_findIdx? (pid : Int) :
    ∀ {insts H : List ProblemInstance}, List.Forall₂ OrderOnly insts H →
      ∀ s : Nat,
        H.findIdx? (fun p => p.problemId = pid) s =
          insts.findIdx? (fun p => p.problemId = pid) s := by
  intro insts H h
  induction h with
  | nil => intro s; rfl
  | @cons a b as bs hab htail ih =>
    intro s
    rw [List.findIdx?_cons, List.findIdx?_cons, orderOnly_problemId hab,
      ih (s + 1)]

theorem sim_modifyAt (o : Int) :
    ∀ {insts H : List ProblemInstance}, List.Forall₂ OrderOnly insts H →
      ∀ j : Nat,
        List.Forall₂ OrderOnly insts
          (modifyAt (fun p => { p with order := o }) H j) := by
  intro insts H h
  induction h with
  | nil => intro j; exact List.Forall₂.nil
  | @cons a b as bs hab htail ih =>
    intro j
    cases j with
    | zero =>
      refine List.Forall₂.cons ?_ htail
      show ({ b with order := o } : ProblemInstance) =
        { a with order := ({ b with order := o } : ProblemInstance).order }
      rw [hab]
    | succ m => exact List.Forall₂.cons hab (ih m)

theorem get?_findIdx?_eq_find? {α : Type} (p : α → Bool) :
    ∀ (l : List α) (i : Nat), l.findIdx? p = some i → l.get? i = l.find? p := by
  intro l
  induction l with
  | nil => intro i h; simp at h
  | cons x xs ih =>
    intro i h
    rw [List.findIdx?_cons] at h
    by_cases hp : p x
    · rw [if_pos hp] at h
      cases h
      rw [List.find?_cons_of_pos xs hp]
      rfl
    · rw [if_neg hp] at h
      rw [List.findIdx?_succ] at h
      cases hfx : xs.findIdx? p with
      | none => rw [hfx] at h; simp at h
      | some j =>
        rw [hfx] at h
        simp only [Option.map_some'] at h
        cases h
        rw [List.find?_cons_of_neg xs hp]
        simpa using ih j hfx

theorem find?_eq_none_of_findIdx?_none {α : Type} (p : α → Bool)
    (l : List α) (h : l.findIdx? p = none) : l.find? p = none := by
  rw [List.find?_eq_none]
  intro x hx
  have := List.findIdx?_eq_none_iff.mp h x hx
  simp [this]

theorem findIdx?_problemId_found (insts : List ProblemInstance) (pid : Int)
    (i : Nat) (h : insts.findIdx? (fun p => p.problemId = pid) = some i) :
    ∃ x, insts.get? i = some x ∧ x.problemId = pid := by
  have hbridge :=
    get?_findIdx?_eq_find? (fun p => decide (p.problemId = pid)) insts i h
  cases hf : insts.find? (fun p => decide (p.problemId = pid)) with
  | none =>
    have hn : insts.findIdx? (fun p => decide (p.problemId = pid)) = none := by
      rw [List.findIdx?_eq_none_iff]
      intro x hx
      have := List.find?_eq_none.mp hf x hx
      simpa using this
    rw [hn] at h
    exact Option.noConfusion h
  | some y =>
    have hy := List.find?_some hf
    refine ⟨y, ?_, by simpa using hy⟩
    rw [hbridge, hf]

theorem finalOrderFrom_cons (k : Nat) (x : Int) (xs : List Int) (pid : Int)
    (d : Int) :
    finalOrderFrom k (x :: xs) pid d =
      finalOrderFrom (k + 1) xs pid (if x = pid then ((k : Int) + 1) else d) :=
  rfl

theorem reorderFold_spec (insts : List ProblemInstance) :
    ∀ (rest : List Int) (k : Nat) (H : List ProblemInstance) (refs : List Nat),
      List.Forall₂ OrderOnly insts H →
      ((rest.enumFrom k).foldl reorderStep (H, refs)).2 =
          refs ++ rest.filterMap
            (fun pid => insts.findIdx? (fun p => p.problemId = pid)) ∧
      ∀ (pid : Int) (i : Nat),
          insts.findIdx? (fun p => p.problemId = pid) = some i →
          ((rest.enumFrom k).foldl reorderStep (H, refs)).1.get? i =
            (H.get? i).map
              (fun h => { h with order := finalOrderFrom k rest pid h.order }) := by
  intro rest
  induction rest with
  | nil =>
    intro k H refs hsim
    refine ⟨by simp [List.enumFrom], ?_⟩
    intro pid i hi
    show H.get? i = (H.get? i).map
      (fun h => { h with order := finalOrderFrom k [] pid h.order })
    cases hH : H.get? i with
    | none => rfl
    | some h => rfl
  | cons pid' rest ih =>
    intro k H refs hsim
    have hstep : ((pid' :: rest).enumFrom k).foldl reorderStep (H, refs) =
        (rest.enumFrom (k + 1)).foldl reorderStep
          (reorderStep (H, refs) (k, pid')) := rfl
    cases hj : insts.findIdx? (fun p => p.problemId = pid') with
    | some j =>
      have hHfind : H.findIdx? (fun p => p.problemId = pid') = some j := by
        rw [sim_findIdx? pid' hsim 0, hj]
      have hstepEq : reorderStep (H, refs) (k, pid') =
          (modifyAt (fun p => { p with order := (k : Int) + 1 }) H j,
           refs ++ [j]) := by
        simp [reorderStep, hHfind]
      obtain ⟨ih1, ih2⟩ := ih (k + 1)
        (modifyAt (fun p => { p with order := (k : Int) + 1 }) H j)
        (refs ++ [j]) (sim_modifyAt _ hsim j)
      constructor
      · rw [hstep, hstepEq, ih1]
        simp [List.filterMap_cons, hj, List.append_assoc]
      · intro pid i hi
        rw [hstep, hstepEq, ih2 pid i hi, modifyAt_get?]
        by_cases hpp : pid' = pid
        · subst hpp
          rw [hj] at hi
          injection hi with hji
          subst hji
          rw [if_pos rfl]
          cases hH : H.get? j with
          | none => rfl
          | some h =>
            simp only [Option.map_some']
            rw [finalOrderFrom_cons, if_pos rfl]
        · have hij : i ≠ j := by
            intro he
            subst he
            obtain ⟨x, hx, hxp⟩ := findIdx?_problemId_found insts pid i hi
            obtain ⟨y, hy, hyp⟩ := findIdx?_problemId_found insts pid' i hj
            rw [hx] at hy
            injection hy with hxy
            subst hxy
            exact hpp (hyp.symm.trans hxp)
          rw [if_neg hij]
          cases hH : H.get? i with
          | none => rfl
          | some h =>
            simp only [Option.map_some']
            rw [finalOrderFrom_cons, if_neg hpp]
    | none =>
      have hHfind : H.findIdx? (fun p => p.problemId = pid') = none := by
        rw [sim_findIdx? pid' hsim 0, hj]
      have hstepEq : reorderStep (H, refs) (k, pid') = (H, refs) := by
        simp [reorderStep, hHfind]
      obtain ⟨ih1, ih2⟩ := ih (k + 1) H refs hsim
      constructor
      · rw [hstep, hstepEq, ih1]
        simp [List.filterMap_cons, hj]
      · intro pid i hi
        have hpp : pid' ≠ pid := by
          intro he
          subst he
          rw [hj] at hi
          exact Option.noConfusion hi
        rw [hstep, hstepEq, ih2 pid i hi]
        cases hH : H.get? i with
        | none => rfl
        | some h =>
          simp only [Option.map_some']
          rw [finalOrderFrom_cons, if_neg hpp]

theorem length_filterMap_isSome {α β : Type} (f : α → Option β) :
    ∀ l : List α,
      (l.filterMap f).length = (l.filter (fun x => (f x).isSome)).length := by
  intro l
  induction l with
  | nil => rfl
  | cons x xs ih =>
    cases hf : f x with
    | none => simp [List.filterMap_cons, List.filter_cons, hf, ih]
    | some b => simp [List.filterMap_cons, List.filter_cons, hf, ih]

theorem find?_isSome_eq_any {α : Type} (p : α → Bool) :
    ∀ l : List α, (l.find? p).isSome = l.any p := by
  intro l
  induction l with
  | nil => rfl
  | cons x xs ih =>
    by_cases hp : p x
    · rw [List.find?_cons_of_pos xs hp]
      simp [hp]
    · rw [List.find?_cons_of_neg xs hp]
      simp [hp, ih]

/-- C2 amended: `reorderProblems(newOrder)` replaces `problemInstances`
with, for each id of `newOrder` in order, the FIRST instance whose
`problemId` equals that id; ids with no matching instance are skipped.
Every kept entry carries, as its `order`, one plus the index of the LAST
occurrence of its `problemId` in `newOrder` (the in-place writes alias, so
the final write wins; for a `newOrder` without repeated ids this is the
1-based position of the id).  Hence the result has one entry per matched id
of `newOrder` (not one per matching instance), and every entry is an
original instance with only its `order` changed. -/
theorem claim_C2_amended (ps : ProblemSet) (newOrder : List Int) :
    (reorderProblems ps newOrder).problemInstances =
      newOrder.filterMap
        (fun pid => (ps.problemInstances.find? (fun p => p.problemId = pid)).map
          (fun p => { p with order := finalOrder newOrder pid p.order })) ∧
    (reorderProblems ps newOrder).problemInstances.length =
      (newOrder.filter
        (fun pid => ps.problemInstances.any (fun p => p.problemId = pid))).length ∧
    (∀ q ∈ (reorderProblems ps newOrder).problemInstances,
        ∃ p ∈ ps.problemInstances, q = { p with order := q.order }) := by
  have hsim : List.Forall₂ OrderOnly ps.problemInstances ps.problemInstances :=
    List.forall₂_same.mpr (fun x _ => rfl)
  obtain ⟨hrefs, hheap⟩ :=
    reorderFold_spec ps.problemInstances newOrder 0 ps.problemInstances [] hsim
  have hmain : (reorderProblems ps newOrder).problemInstances =
      newOrder.filterMap
        (fun pid => (ps.problemInstances.find? (fun p => p.problemId = pid)).map
          (fun p => { p with order := finalOrder newOrder pid p.order })) := by
    show ((newOrder.enumFrom 0).foldl reorderStep
          (ps.problemInstances, [])).2.filterMap
        (fun i => ((newOrder.enumFrom 0).foldl reorderStep
          (ps.problemInstances, [])).1.get? i) = _
    rw [hrefs, List.nil_append, List.filterMap_filterMap]
    refine List.filterMap_congr (fun pid _ => ?_)
    cases hf : ps.problemInstances.findIdx? (fun p => p.problemId = pid) with
    | none =>
      rw [find?_eq_none_of_findIdx?_none _ _ hf]
      rfl
    | some i =>
      show ((newOrder.enumFrom 0).foldl reorderStep
          (ps.problemInstances, [])).1.get? i = _
      rw [hheap pid i hf, get?_findIdx?_eq_find? _ _ i hf]
      rfl
  refine ⟨hmain, ?_, ?_⟩
  · rw [hmain, length_filterMap_isSome]
    refine congrArg List.length (List.filter_congr fun pid _ => ?_)
    rw [Option.isSome_map', find?_isSome_eq_any]
  · intro q hq
    rw [hmain] at hq
    simp only [List.mem_filterMap, Option.map_eq_some'] at hq
    obtain ⟨pid, -, p, hfind, rfl⟩ := hq
    exact ⟨p, List.mem_of_find?_eq_some hfind, rfl⟩

/-- Witness for the amended C2 at the concrete duplicated set: the single
survivor of `reorderProblems psDup [1]` is an original instance with only
its order changed. -/
theorem claim_C2_amended_witness :
    ∃ p ∈ psDup.problemInstances,
      ({ dupA with order := 1 } : ProblemInstance) =
        { p with order := ({ dupA with order := 1 } : ProblemInstance).order } :=
  (claim_C2_amended psDup [1]).2.2 { dupA with order := 1 } (by decide)

theorem updateFirst_eq_set (pred : ProblemInstance → Bool)
    (f : ProblemInstance → ProblemInstance) :
    ∀ l : List ProblemInstance, l.any pred = true →
      ∃ k p, l.get? k = some p ∧ pred p = true ∧
        updateFirst pred f l = l.set k (f p) := by
  intro l
  induction l with
  | nil => intro h; simp at h
  | cons q qs ih =>
    intro h
    by_cases hq : pred q = true
    · exact ⟨0, q, rfl, hq, by simp [updateFirst, hq]⟩
    · have hq' : pred q = false := by
        cases hpq : pred q
        · rfl
        · exact absurd hpq hq
      have htail : qs.any pred = true := by
        simp only [List.any_cons, hq', Bool.false_or] at h
        exact h
      obtain ⟨k, p, hget, hp, heq⟩ := ih htail
      exact ⟨k + 1, p, by simpa using hget, hp, by simp [updateFirst, hq', heq]⟩

/-- C5: `updateProblemInstance(id, updates)` throws
`Problem instance not found` exactly when no instance has `_id` equal to
`id` — and in that case the returned value is the bare error, no document
having been assigned to or saved — while with a matching instance it
returns the saved document in which that instance (at its position `k`) has
the updates assigned and `lastModified` stamped with the current time, all
other instances unchanged. -/
theorem claim_C5 (ps : ProblemSet) (id : String) (u : InstanceUpdates)
    (now : Int) :
    (updateProblemInstance ps id u now = .error "Problem instance not found" ↔
        ∀ p ∈ ps.problemInstances, p.oid ≠ some id) ∧
    ((∃ p ∈ ps.problemInstances, p.oid = some id) →
        ∃ k p, ps.problemInstances.get? k = some p ∧ p.oid = some id ∧
          updateProblemInstance ps id u now =
            .ok { ps with problemInstances :=
                    ps.problemInstances.set k (assignUpdates p u now) } ∧
          (assignUpdates p u now).lastModified = now) := by
  constructor
  · constructor
    · intro h
      intro p hp hpid
      rw [updateProblemInstance] at h
      have hany : ps.problemInstances.any (fun p => decide (p.oid = some id)) = true := by
        rw [List.any_eq_true]
        exact ⟨p, hp, by simp [hpid]⟩
      rw [if_pos hany] at h
      exact Except.noConfusion h
    · intro hnone
      rw [updateProblemInstance]
      have hany : ps.problemInstances.any (fun p => decide (p.oid = some id)) = false := by
        rw [List.any_eq_false]
        intro p hp
        simp [hnone p hp]
      rw [if_neg (by simp [hany])]
  · intro hex
    have hany : ps.problemInstances.any (fun p => decide (p.oid = some id)) = true := by
      rw [List.any_eq_true]
      obtain ⟨p, hp, hpid⟩ := hex
      exact ⟨p, hp, by simp [hpid]⟩
    obtain ⟨k, p, hget, hp, heq⟩ :=
      updateFirst_eq_set (fun p => decide (p.oid = some id))
        (fun p => assignUpdates p u now) ps.problemInstances hany
    refine ⟨k, p, hget, by simpa using hp, ?_, rfl⟩
    rw [updateProblemInstance, if_pos hany, heq]

/-- Witness for C5: on a set whose instances carry no `_id`, updating by
any id throws `Problem instance not found`. -/
theorem claim_C5_witness :
    updateProblemInstance psDup "x1" {} 7 = .error "Problem instance not found" :=
  (claim_C5 psDup "x1" {} 7).1.mpr (by decide)

/-- The enrollment condition as the claim words it: `x` is among the
`problemSetId` values of the user enrollments, or among the ids
(`String(ps.id || ps._id)`) of the problem sets whose `participants` array
contains the user id as a string or as an ObjectId. -/
def claimUnionMem (db : EnrollmentDb) (u x : String) : Prop :=
  (∃ e ∈ db.enrollments, e.userId = u ∧ e.problemSetId = x) ∨
  (∃ q ∈ db.problemSets,
      (BVal.str u ∈ q.participants ∨ BVal.oid u ∈ q.participants) ∧
      idOrMongoId q = x)

theorem mem_userEnrollments (db : EnrollmentDb) (u x : String) :
    x ∈ userEnrollmentsOf db (some u) ↔ claimUnionMem db u x := by
  simp only [userEnrollmentsOf, List.mem_append, enrollmentIdsOf,
    participantIdsOf, List.mem_map, List.mem_filter, claimUnionMem,
    participantsMatch, List.any_eq_true, Bool.or_eq_true, decide_eq_true_eq]
  constructor
  · rintro (⟨e, ⟨he, heu⟩, hex⟩ | ⟨q, ⟨hq, v, hv, hvu⟩, hqx⟩)
    · exact Or.inl ⟨e, he, heu, hex⟩
    · refine Or.inr ⟨q, hq, ?_, hqx⟩
      rcases hvu with rfl | rfl
      · exact Or.inl hv
      · exact Or.inr hv
  · rintro (⟨e, he, heu, hex⟩ | ⟨q, hq, hpart, hqx⟩)
    · exact Or.inl ⟨e, ⟨he, heu⟩, hex⟩
    · refine Or.inr ⟨q, ⟨hq, ?_⟩, hqx⟩
      rcases hpart with hv | hv
      · exact ⟨BVal.str u, hv, Or.inl rfl⟩
      · exact ⟨BVal.oid u, hv, Or.inr rfl⟩

/-- C1: in the response of GET /api/problem-sets-with-enrollment for an
authenticated user, a record's `isEnrolled` flag is true exactly when the
stringified `id` of the set, or its `_id`, belongs to the union of the two
enrollment sources (enrollment records of the user, and participant
membership as string or ObjectId). -/
theorem claim_C1 (db : EnrollmentDb) (u : String)
    (entry : RawProblemSet × Bool)
    (h : entry ∈ problemSetsWithEnrollment db (some u)) :
    entry.2 = true ↔
      claimUnionMem db u (jsStringOfId entry.1.id) ∨
        claimUnionMem db u entry.1.mongoId := by
  simp only [problemSetsWithEnrollment, List.mem_map] at h
  obtain ⟨ps, hps, rfl⟩ := h
  show isEnrolledFlag db (some u) ps = true ↔ _
  simp only [isEnrolledFlag, Bool.or_eq_true, List.any_eq_true,
    decide_eq_true_eq, exists_eq_right]
  rw [mem_userEnrollments, mem_userEnrollments]

/-- A concrete database for the C1 witness: one problem set whose
participants array holds the user as an ObjectId, and no enrollment
records. -/
def dbW : EnrollmentDb :=
  { problemSets := [{ mongoId := "m1", id := some "s1",
                      participants := [.oid "u1"] }],
    enrollments := [] }

/-- Witness for C1: the flag of the only returned record is true, so by the
theorem the set id belongs to the claimed union. -/
theorem claim_C1_witness :
    claimUnionMem dbW "u1" (jsStringOfId (some "s1")) ∨
      claimUnionMem dbW "u1" "m1" :=
  (claim_C1 dbW "u1"
      ({ mongoId := "m1", id := some "s1", participants := [.oid "u1"] }, true)
      (by decide)).mp rfl

/-- C6: both enrollment alias handlers map failures to conventional status
codes.  A non-numeric `:enrollmentId` yields 400 before any storage call; a
missing enrollment yields 404 — for DELETE through a thrown storage error
whose message contains `not found`, for PATCH through `findOneAndUpdate`
returning no document; any other storage error yields 500; and a successful
call yields the 200 JSON response. -/
theorem claim_C6 {α : Type} (delStore : Int → Except String Unit)
    (patchStore : Int → Except Unit (Option α)) (param : String) :
    (parseIntJS param = none →
        deleteEnrollmentHandler delStore param = (400, "Invalid enrollment id") ∧
        patchEnrollmentHandler patchStore param =
          (400, .message "Invalid enrollment id")) ∧
    (∀ n, parseIntJS param = some n →
        (∀ m, delStore n = .error m → strIncludes m "not found" = true →
            deleteEnrollmentHandler delStore param =
              (404, "Enrollment not found")) ∧
        (∀ m, delStore n = .error m → strIncludes m "not found" = false →
            deleteEnrollmentHandler delStore param =
              (500, "Failed to delete enrollment")) ∧
        (delStore n = .ok () →
            deleteEnrollmentHandler delStore param =
              (200, "Enrollment deleted")) ∧
        (patchStore n = .error () →
            patchEnrollmentHandler patchStore param =
              (500, .message "Failed to update enrollment")) ∧
        (patchStore n = .ok none →
            patchEnrollmentHandler patchStore param =
              (404, .message "Enrollment not found")) ∧
        (∀ e, patchStore n = .ok (some e) →
            patchEnrollmentHandler patchStore param = (200, .record e))) := by
  constructor
  · intro h
    constructor
    · simp [deleteEnrollmentHandler, h]
    · simp [patchEnrollmentHandler, h]
  · intro n hn
    refine ⟨?_, ?_, ?_, ?_, ?_, ?_⟩
    · intro m hm hnf
      simp [deleteEnrollmentHandler, hn, hm, hnf]
    · intro m hm hnf
      simp [deleteEnrollmentHandler, hn, hm, hnf]
    · intro h
      simp [deleteEnrollmentHandler, hn, h]
    · intro h
      simp [patchEnrollmentHandler, hn, h]
    · intro h
      simp [patchEnrollmentHandler, hn, h]
    · intro e h
      simp [patchEnrollmentHandler, hn, h]

/-- Witness for C6: the non-numeric id `abc` is answered 400 by both
handlers. -/
theorem claim_C6_witness :
    deleteEnrollmentHandler (fun _ => .ok ()) "abc" =
      (400, "Invalid enrollment id") ∧
    patchEnrollmentHandler (fun _ => (.ok none : Except Unit (Option Unit)))
        "abc" = (400, .message "Invalid enrollment id") :=
  (claim_C6 (fun _ => .ok ()) (fun _ => (.ok none : Except Unit (Option Unit)))
    "abc").1 rfl

/-- C8: the reset-progress handler answers 401 without an authenticated
user id (a missing or empty id is falsy), 500 when `canUserAccessCourse`
throws, 403 when it denies access, and otherwise 200 `{success: true}` on
completion or 500 when `resetUserCourseProgress` throws. -/
theorem claim_C8 (can : Option Int → String → Bool → Except Unit Bool)
    (reset : String → Option Int → Except Unit Unit)
    (param : String) (user : Option AuthUser) :
    ((user.bind (fun u => u.id) = none ∨ user.bind (fun u => u.id) = some "") →
        resetProgressHandler can reset param user =
          (401, .message "Unauthorized")) ∧
    (∀ uid, user.bind (fun u => u.id) = some uid → uid ≠ "" →
        (can (parseIntJS param) uid
              (decide (user.bind (fun u => u.role) = some "admin")) =
            .error () →
          resetProgressHandler can reset param user =
            (500, .message "Failed to reset course progress")) ∧
        (can (parseIntJS param) uid
              (decide (user.bind (fun u => u.role) = some "admin")) =
            .ok false →
          resetProgressHandler can reset param user =
            (403, .message "Access denied")) ∧
        (can (parseIntJS param) uid
              (decide (user.bind (fun u => u.role) = some "admin")) =
            .ok true →
          (reset uid (parseIntJS param) = .error () →
              resetProgressHandler can reset param user =
                (500, .message "Failed to reset course progress")) ∧
          (reset uid (parseIntJS param) = .ok () →
              resetProgressHandler can reset param user =
                (200, .successTrue)))) := by
  constructor
  · rintro (h | h)
    · simp [resetProgressHandler, h]
    · simp [resetProgressHandler, h]
  · intro uid huid hne
    refine ⟨?_, ?_, ?_⟩
    · intro h
      simp [resetProgressHandler, huid, hne, h]
    · intro h
      simp [resetProgressHandler, huid, hne, h]
    · intro h
      constructor
      · intro hr
        simp [resetProgressHandler, huid, hne, h, hr]
      · intro hr
        simp [resetProgressHandler, huid, hne, h, hr]

/-- Witness for C8: an unauthenticated request is answered 401. -/
theorem claim_C8_witness :
    resetProgressHandler (fun _ _ _ => .ok true) (fun _ _ => .ok ()) "1" none =
      (401, .message "Unauthorized") :=
  (claim_C8 (fun _ _ _ => .ok true) (fun _ _ => .ok ()) "1" none).1 (Or.inl rfl)

theorem dispatch_append_of_none (req : Req) :
    ∀ hs ks : List Handler, (∀ h ∈ hs, h req = none) →
      dispatch (hs ++ ks) req = dispatch ks req := by
  intro hs
  induction hs with
  | nil => intro ks _; rfl
  | cons h hs ih =>
    intro ks hnone
    have h0 : h req = none := hnone h (List.mem_cons_self h hs)
    simp only [List.cons_append, dispatch, h0]
    exact ih ks (fun g hg => hnone g (List.mem_cons_of_mem h hg))

/-- C7: a request whose path is under `/api` and which none of the routes
registered before the catch-all handles is answered by the catch-all — the
last registered entry — with status 404 and the JSON body
`{"message": "Not Found"}`, never HTML. -/
theorem claim_C7 (maintenance problemSetsRouter versionHistoryRoutes
    contestsRouter adminRouter assignmentAnalyticsRoutes problemsRouter
    submissionsRouter coursesRouter modulesRouter usersRouter
    assignmentsRouter resetH withEnrollH delH patchH : Handler) (req : Req)
    (hapi : mountMatches "/api" req.path = true)
    (hmiss : ∀ h ∈ registerRoutesFront maintenance problemSetsRouter
        versionHistoryRoutes contestsRouter adminRouter
        assignmentAnalyticsRoutes problemsRouter submissionsRouter
        coursesRouter modulesRouter usersRouter assignmentsRouter resetH
        withEnrollH delH patchH, h req = none) :
    dispatch (registerRoutesTable maintenance problemSetsRouter
        versionHistoryRoutes contestsRouter adminRouter
        assignmentAnalyticsRoutes problemsRouter submissionsRouter
        coursesRouter modulesRouter usersRouter assignmentsRouter resetH
        withEnrollH delH patchH) req = some (404, "Not Found") := by
  rw [registerRoutesTable, dispatch_append_of_none req _ _ hmiss]
  simp [dispatch, apiCatchAll, hapi]

/-- A handler that always passes the request on, standing in for the
routers outside this repository slice in the C7 witness. -/
def passH : Handler := fun _ => none

/-- Witness for C7: with all mounted routers passing, the request
`GET /api/unknown` is answered 404 `Not Found` by the catch-all. -/
theorem claim_C7_witness :
    dispatch (registerRoutesTable passH passH passH passH passH passH passH
        passH passH passH passH passH passH passH passH passH)
      { method := "GET", path := "/api/unknown" } = some (404, "Not Found") :=
  claim_C7 passH passH passH passH passH passH passH passH passH passH passH
    passH passH passH passH passH { method := "GET", path := "/api/unknown" }
    rfl (by intro h hm; fin_cases hm <;> rfl)

end CodeArena
